import Mathlib

/-
Verification development for the expectation-sequencing engine of
`mocktcp.py` (pytest-mocktcp).

The Python source is shallowly embedded: byte strings become `List Nat`,
the tagged event classes become an inductive `ServerActionEvent`, the
expectation-step classes become an inductive `Step`, and the mutable
`MockTcpServer` instance becomes an explicit `EngineState` record.  The
two background tasks (`evaluate_expectations` and
`execute_server_actions`) run under a single cooperative scheduler; the
evaluator enqueues one action and then awaits its own step's `evaluate`,
so at most one action is in flight at a time and one loop iteration of
the pair serializes as `evaluatorStep` below.  Transport outcomes that
come from outside the engine (what `reader.readexactly` / `reader.read`
return, whether `writer.write` raises) are supplied by a `World` oracle.
-/

/-- Byte strings (`bytes` in the source) as lists of byte values. -/
abbrev Bytes := List Nat

/-- Python exceptions that the engine's actions can raise or catch:
`asyncio.TimeoutError`, `AssertionError` (from the byte-ledger
assertion), `ConnectionResetError`, and `asyncio.IncompleteReadError`
(from `readexactly`). -/
inductive PyError where
  | TimeoutError
  | AssertionError
  | ConnectionResetError
  | IncompleteReadError
  deriving DecidableEq

/-- The closed set of `ServerActionEvent` dataclasses of the source. -/
inductive ServerActionEvent where
  | ClientConnectedEvent
  | SecondClientConnectionAttempted
  | ReadZeroBytes
  | ClientCalledWriterWaitClosed
  | NoRemainingSentData
  | ExceptionEvent (exception : PyError)
  | BytesReadEvent (bytes_read : Bytes)
  | TimeoutEvent
  | UnreadSentBytes (unread_bytes : Bytes)
  deriving DecidableEq

/-- Entries of `MockTcpServer.errors`: either an `UnexpectedEventError`
raised by a step's `evaluate`, or a raw Python exception raised by a
server action and caught by the executor task. -/
inductive MockError where
  | unexpectedEventError (expected_event actual_event : ServerActionEvent)
  | pyError (e : PyError)
  deriving DecidableEq

/-- The expectation-step classes of the source, with the per-step data
they store (the engine reference is implicit: steps act on `EngineState`). -/
inductive Step where
  | ExpectConnect (timeout : Nat)
  | ExpectClientCalledWriterWaitClosed (timeout : Nat)
  | ExpectBytes (expected_bytes : Bytes) (timeout : Nat)
  | ExpectReadZeroBytes (timeout : Nat)
  | ExpectClientReadAllSentBytes (timeout : Nat)
  | SendBytes (data : Bytes)
  deriving DecidableEq

/-- Outcome of `asyncio.wait_for(reader.readexactly(n), timeout)` in
`ExpectBytes.server_action`. -/
inductive ReadOutcome where
  | ok (data : Bytes)
  | timeout
  | incompleteRead
  deriving DecidableEq

/-- Outcome of `asyncio.wait_for(reader.read(), timeout)` in
`ExpectReadZeroBytes.server_action`. -/
inductive ReadCloseOutcome where
  | data (received : Bytes)
  | timeout
  | connectionReset
  deriving DecidableEq

/-- External-transport oracle for one scheduler iteration. -/
structure World where
  readExactOutcome : ReadOutcome
  readUntilCloseOutcome : ReadCloseOutcome
  writeRaises : Bool
  deriving DecidableEq

/-- The mutable state of a `MockTcpServer` instance.  Queues are FIFO
lists (head = next to be dequeued); `expecations_queue` keeps the
source's spelling.  `hung` records that a task performed a blocking
`get` on an empty event queue with no producer left, i.e. it would
suspend forever. -/
structure EngineState where
  connected : Bool
  errors : List MockError
  join_already_failed : Bool
  stopped : Bool
  server_event_queue : List ServerActionEvent
  server_actions : List Step
  expecations_queue : List Step
  reader : Option Nat
  writer : Option Nat
  client_called_writer_waited_closed : Bool
  data_read_by_client : Bytes
  data_sent_from_server : Bytes
  hung : Bool
  deriving DecidableEq

/-- `MockTcpServer.__init__` state. -/
def initialState : EngineState :=
  { connected := false
    errors := []
    join_already_failed := false
    stopped := false
    server_event_queue := []
    server_actions := []
    expecations_queue := []
    reader := none
    writer := none
    client_called_writer_waited_closed := false
    data_read_by_client := []
    data_sent_from_server := []
    hung := false }

/-- `ExpectConnect.evaluate` body, given the event obtained from the
event queue (or the locally synthesized `TimeoutEvent`). -/
def expectConnectEvaluate (next_event : ServerActionEvent) : Except MockError Unit :=
  match next_event with
  | ServerActionEvent.ClientConnectedEvent => Except.ok ()
  | e => Except.error (MockError.unexpectedEventError ServerActionEvent.ClientConnectedEvent e)

/-- `ExpectClientCalledWriterWaitClosed.evaluate`: awaits the
`client_called_writer_waited_closed` latch with the step's timeout;
a timeout synthesizes `TimeoutEvent` locally. -/
def expectClientCalledWriterWaitClosedEvaluate (latchSet : Bool) : Except MockError Unit :=
  let next_event :=
    if latchSet then ServerActionEvent.ClientCalledWriterWaitClosed
    else ServerActionEvent.TimeoutEvent
  match next_event with
  | ServerActionEvent.ClientCalledWriterWaitClosed => Except.ok ()
  | e => Except.error (MockError.unexpectedEventError ServerActionEvent.ClientCalledWriterWaitClosed e)

/-- `ExpectBytes.server_action`: `readexactly(len(expected_bytes))`
under `wait_for`; `TimeoutError` is caught and becomes `TimeoutEvent`,
an `IncompleteReadError` propagates. -/
def expectBytesServerAction (expected_bytes : Bytes) (o : ReadOutcome) :
    Except PyError ServerActionEvent :=
  match o with
  | ReadOutcome.ok received => Except.ok (ServerActionEvent.BytesReadEvent received)
  | ReadOutcome.timeout => Except.ok ServerActionEvent.TimeoutEvent
  | ReadOutcome.incompleteRead => Except.error PyError.IncompleteReadError

/-- `ExpectBytes.evaluate` body, given the next event from the queue. -/
def expectBytesEvaluate (expected_bytes : Bytes) (next_event : ServerActionEvent) :
    Except MockError Unit :=
  match next_event with
  | ServerActionEvent.BytesReadEvent br =>
      if br = expected_bytes then Except.ok ()
      else Except.error (MockError.unexpectedEventError
        (ServerActionEvent.BytesReadEvent expected_bytes) (ServerActionEvent.BytesReadEvent br))
  | e => Except.error (MockError.unexpectedEventError
      (ServerActionEvent.BytesReadEvent expected_bytes) e)

/-- `ExpectReadZeroBytes.server_action`: read until end-of-stream with
the step's timeout; empty read and `ConnectionResetError` both yield
`ReadZeroBytes`, nonempty data yields `BytesReadEvent`, a timeout
yields `TimeoutEvent`. -/
def expectReadZeroBytesServerAction (o : ReadCloseOutcome) : ServerActionEvent :=
  match o with
  | ReadCloseOutcome.data received =>
      if received.length = 0 then ServerActionEvent.ReadZeroBytes
      else ServerActionEvent.BytesReadEvent received
  | ReadCloseOutcome.timeout => ServerActionEvent.TimeoutEvent
  | ReadCloseOutcome.connectionReset => ServerActionEvent.ReadZeroBytes

/-- `ExpectReadZeroBytes.evaluate` body, given the next event. -/
def expectReadZeroBytesEvaluate (next_event : ServerActionEvent) : Except MockError Unit :=
  match next_event with
  | ServerActionEvent.ReadZeroBytes => Except.ok ()
  | e => Except.error (MockError.unexpectedEventError ServerActionEvent.ReadZeroBytes e)

/-- Body of the `try` block of `ExpectClientReadAllSentBytes.server_action`:
compare the ledgers; unequal ledgers assert the prefix invariant and
return the unread suffix. -/
def expectClientReadAllSentBytesBody (sent_bytes read_bytes : Bytes) :
    Except PyError ServerActionEvent :=
  if read_bytes = sent_bytes then Except.ok ServerActionEvent.NoRemainingSentData
  else if read_bytes.isPrefixOf sent_bytes then
    Except.ok (ServerActionEvent.UnreadSentBytes (sent_bytes.drop read_bytes.length))
  else Except.error PyError.AssertionError

/-- `ExpectClientReadAllSentBytes.server_action`: the body wrapped in
`try ... except asyncio.TimeoutError: return TimeoutEvent()`. -/
def expectClientReadAllSentBytesServerAction (timeout : Nat) (sent_bytes read_bytes : Bytes) :
    Except PyError ServerActionEvent :=
  match expectClientReadAllSentBytesBody sent_bytes read_bytes with
  | Except.error PyError.TimeoutError => Except.ok ServerActionEvent.TimeoutEvent
  | r => r

/-- `ExpectClientReadAllSentBytes.evaluate` body, given the next event. -/
def expectClientReadAllSentBytesEvaluate (next_event : ServerActionEvent) :
    Except MockError Unit :=
  match next_event with
  | ServerActionEvent.NoRemainingSentData => Except.ok ()
  | e => Except.error (MockError.unexpectedEventError ServerActionEvent.NoRemainingSentData e)

/-- `SendBytes.server_action`: write the data and append it to the
`data_sent_from_server` ledger; any raised exception is caught by the
bare `except BaseException` and suppressed, leaving the ledger
untouched.  The action returns no event either way. -/
def sendBytesServerAction (data : Bytes) (writeRaisesFlag : Bool) (ledger : Bytes) :
    Bytes × Option ServerActionEvent :=
  if writeRaisesFlag then (ledger, none)
  else (ledger ++ data, none)

/-- String form of a byte payload used inside diagnostic messages. -/
def bytesRepr (b : Bytes) : String := toString b

/-- String form of an event, mirroring the dataclass `str`. -/
def serverActionEventRepr (e : ServerActionEvent) : String :=
  match e with
  | ServerActionEvent.ClientConnectedEvent => "ClientConnectedEvent()"
  | ServerActionEvent.SecondClientConnectionAttempted => "SecondClientConnectionAttempted()"
  | ServerActionEvent.ReadZeroBytes => "ReadZeroBytes()"
  | ServerActionEvent.ClientCalledWriterWaitClosed => "ClientCalledWriterWaitClosed()"
  | ServerActionEvent.NoRemainingSentData => "NoRemainingSentData()"
  | ServerActionEvent.ExceptionEvent _ => "ExceptionEvent()"
  | ServerActionEvent.BytesReadEvent br => "BytesReadEvent(bytes_read=" ++ bytesRepr br ++ ")"
  | ServerActionEvent.TimeoutEvent => "TimeoutEvent()"
  | ServerActionEvent.UnreadSentBytes ub => "UnreadSentBytes(unread_bytes=" ++ bytesRepr ub ++ ")"

/-- String form of a recorded error; for `UnexpectedEventError` this
mirrors the message built in its constructor (which, as in the source,
lacks the closing parenthesis). -/
def mockErrorRepr (e : MockError) : String :=
  match e with
  | MockError.unexpectedEventError ex ac =>
      "UnexpectedEventError(expected_event=" ++ serverActionEventRepr ex
        ++ ", actual_event=" ++ serverActionEventRepr ac
  | MockError.pyError _ => "PyError"

/-- `interpret_error`: the table-driven diagnostic interpreter. -/
def interpret_error (exception : MockError) : String :=
  match exception with
  | MockError.unexpectedEventError expected_event actual_event =>
    match expected_event, actual_event with
    | ServerActionEvent.ReadZeroBytes, ServerActionEvent.SecondClientConnectionAttempted =>
        "While waiting for client to disconnect a second connection was attempted"
    | ServerActionEvent.ReadZeroBytes, ServerActionEvent.TimeoutEvent =>
        "Timed out waiting for client to disconnect. Remember to call `writer.close()`."
    | ServerActionEvent.ReadZeroBytes, ServerActionEvent.BytesReadEvent br =>
        "Received unexpected data while waiting for client to disconnect. Data is "
          ++ bytesRepr br ++ "."
    | ServerActionEvent.ClientConnectedEvent, ServerActionEvent.TimeoutEvent =>
        "Timed out waiting for client to connect"
    | ServerActionEvent.BytesReadEvent eb, ServerActionEvent.TimeoutEvent =>
        "Timed out waiting for " ++ bytesRepr eb
    | ServerActionEvent.BytesReadEvent eb, ServerActionEvent.ClientConnectedEvent =>
        "Missing `expect_connect()` before `expect_bytes(" ++ bytesRepr eb ++ ")`"
    | ServerActionEvent.BytesReadEvent eb, ServerActionEvent.BytesReadEvent ab =>
        "Expected to read " ++ bytesRepr eb ++ " but actually read " ++ bytesRepr ab
    | ServerActionEvent.ClientCalledWriterWaitClosed, ServerActionEvent.TimeoutEvent =>
        "Timed out waiting for client to call `await writer.wait_closed()`."
    | ServerActionEvent.NoRemainingSentData, ServerActionEvent.UnreadSentBytes ub =>
        "There is data sent by server that was not read by client: unread_bytes="
          ++ bytesRepr ub ++ "."
    | _, _ => "Cannot interpret " ++ mockErrorRepr exception
  | _ => "Cannot interpret " ++ mockErrorRepr exception

/-- `handle_client_connection` (the closure registered in
`start_accepting_connections`), with reader/writer transport handles
abstracted as numbers. -/
def handle_client_connection (s : EngineState) (reader writer : Nat) : EngineState :=
  if s.connected then
    { s with server_event_queue :=
        s.server_event_queue ++ [ServerActionEvent.SecondClientConnectionAttempted] }
  else
    { s with connected := true
             reader := some reader
             writer := some writer
             server_event_queue :=
               s.server_event_queue ++ [ServerActionEvent.ClientConnectedEvent] }

/-- `MockTcpServer.check_not_stopped`. -/
def check_not_stopped (s : EngineState) : Except String Unit :=
  if s.stopped then Except.error "Fixture is stopped" else Except.ok ()

/-- `MockTcpServer.expect_connect`. -/
def expect_connect (s : EngineState) (timeout : Nat) : Except String EngineState :=
  match check_not_stopped s with
  | Except.error e => Except.error e
  | Except.ok _ =>
      Except.ok { s with expecations_queue :=
        s.expecations_queue ++ [Step.ExpectConnect timeout] }

/-- `MockTcpServer.expect_bytes`. -/
def expect_bytes (s : EngineState) (expected_bytes : Bytes) (timeout : Nat) :
    Except String EngineState :=
  match check_not_stopped s with
  | Except.error e => Except.error e
  | Except.ok _ =>
      Except.ok { s with expecations_queue :=
        s.expecations_queue ++ [Step.ExpectBytes expected_bytes timeout] }

/-- `MockTcpServer.send_bytes`. -/
def send_bytes (s : EngineState) (data : Bytes) : Except String EngineState :=
  match check_not_stopped s with
  | Except.error e => Except.error e
  | Except.ok _ =>
      Except.ok { s with expecations_queue :=
        s.expecations_queue ++ [Step.SendBytes data] }

/-- `MockTcpServer.expect_disconnect`: enqueues the three-step
disconnect composite. -/
def expect_disconnect (s : EngineState) (timeout : Nat) : Except String EngineState :=
  match check_not_stopped s with
  | Except.error e => Except.error e
  | Except.ok _ =>
      Except.ok { s with expecations_queue :=
        s.expecations_queue ++
          [Step.ExpectReadZeroBytes timeout,
           Step.ExpectClientCalledWriterWaitClosed timeout,
           Step.ExpectClientReadAllSentBytes timeout] }

/-- A blocking `await self.server.server_event_queue.get()` followed by
the step's check `f`; on an empty queue with no pending producer the
task would suspend forever, recorded by `hung`. -/
def blockingEvaluate (f : ServerActionEvent → Except MockError Unit) (s : EngineState) :
    EngineState :=
  match s.server_event_queue with
  | [] => { s with hung := true }
  | ev :: rest =>
      match f ev with
      | Except.ok _ => { s with server_event_queue := rest }
      | Except.error e =>
          { s with server_event_queue := rest, errors := s.errors ++ [e] }

/-- The evaluator task's `await expectation.evaluate()` wrapped in
`try ... except Exception as e: self.error(e)`. -/
def evaluatorEvaluate (step : Step) (s : EngineState) : EngineState :=
  match step with
  | Step.ExpectConnect _ =>
      match s.server_event_queue with
      | [] =>
          match expectConnectEvaluate ServerActionEvent.TimeoutEvent with
          | Except.ok _ => s
          | Except.error e => { s with errors := s.errors ++ [e] }
      | ev :: rest =>
          match expectConnectEvaluate ev with
          | Except.ok _ => { s with server_event_queue := rest }
          | Except.error e =>
              { s with server_event_queue := rest, errors := s.errors ++ [e] }
  | Step.ExpectClientCalledWriterWaitClosed _ =>
      match expectClientCalledWriterWaitClosedEvaluate s.client_called_writer_waited_closed with
      | Except.ok _ => s
      | Except.error e => { s with errors := s.errors ++ [e] }
  | Step.ExpectBytes expected _ => blockingEvaluate (expectBytesEvaluate expected) s
  | Step.ExpectReadZeroBytes _ => blockingEvaluate expectReadZeroBytesEvaluate s
  | Step.ExpectClientReadAllSentBytes _ => blockingEvaluate expectClientReadAllSentBytesEvaluate s
  | Step.SendBytes _ => s

/-- Run one step's `server_action` against the state and the transport
oracle, returning the updated state and the action's result (`none`:
the action returned no event; `Except.error`: the action raised). -/
def runServerAction (w : World) (step : Step) (s : EngineState) :
    EngineState × Except PyError (Option ServerActionEvent) :=
  match step with
  | Step.ExpectConnect _ => (s, Except.ok none)
  | Step.ExpectClientCalledWriterWaitClosed _ => (s, Except.ok none)
  | Step.ExpectBytes expected _ =>
      (s, (expectBytesServerAction expected w.readExactOutcome).map some)
  | Step.ExpectReadZeroBytes _ =>
      (s, Except.ok (some (expectReadZeroBytesServerAction w.readUntilCloseOutcome)))
  | Step.ExpectClientReadAllSentBytes t =>
      (s, (expectClientReadAllSentBytesServerAction t
            s.data_sent_from_server s.data_read_by_client).map some)
  | Step.SendBytes data =>
      ({ s with data_sent_from_server :=
           (sendBytesServerAction data w.writeRaises s.data_sent_from_server).1 },
       Except.ok (sendBytesServerAction data w.writeRaises s.data_sent_from_server).2)

/-- One iteration of `MockTcpServer.execute_server_actions`: dequeue the
next action; if `errors` is non-empty drop it, otherwise execute it,
turning a raised exception into a recorded error plus an
`ExceptionEvent`, and publish the produced event (if any). -/
def executorStep (w : World) (s : EngineState) : EngineState :=
  match s.server_actions with
  | [] => s
  | step :: rest =>
      if s.errors = [] then
        match runServerAction w step { s with server_actions := rest } with
        | (s2, Except.ok none) => s2
        | (s2, Except.ok (some ev)) =>
            { s2 with server_event_queue := s2.server_event_queue ++ [ev] }
        | (s2, Except.error e) =>
            { s2 with errors := s2.errors ++ [MockError.pyError e]
                      server_event_queue :=
                        s2.server_event_queue ++ [ServerActionEvent.ExceptionEvent e] }
      else { s with server_actions := rest }

/-- One iteration of `MockTcpServer.evaluate_expectations`, serialized
with the executor's processing of the enqueued action (the evaluator
enqueues the step's action and immediately awaits the step's
`evaluate`, so the executor handles that action during the wait).  If
`errors` is non-empty the step is consumed and marked processed with no
other effect. -/
def evaluatorStep (w : World) (s : EngineState) : EngineState :=
  match s.expecations_queue with
  | [] => s
  | step :: rest =>
      if s.errors = [] then
        evaluatorEvaluate step
          (executorStep w
            { s with expecations_queue := rest
                     server_actions := s.server_actions ++ [step] })
      else { s with expecations_queue := rest }

/-- Run the evaluator loop once per world in `ws`. -/
def runSteps (ws : List World) (s : EngineState) : EngineState :=
  match ws with
  | [] => s
  | w :: rest => runSteps rest (evaluatorStep w s)

/-- `MockTcpServer.join` after `expecations_queue.join()` has
completed: the returned `Option String` is `some msg` when `join`
raises `Exception(msg)`. -/
def joinResult (s : EngineState) : EngineState × Option String :=
  if s.join_already_failed then (s, none)
  else
    match s.errors with
    | [] => (s, none)
    | e :: _ => ({ s with join_already_failed := true }, some (interpret_error e))

/-- Whether the await inside `join` completes at once: either the
short-circuit flag is set, or every enqueued expectation has been
processed (`expecations_queue.join()` returns). -/
def joinTerminates (s : EngineState) : Bool :=
  s.join_already_failed || s.expecations_queue.isEmpty

/-- Concatenation, in declaration order, of the payloads of the
`SendBytes` steps of a script. -/
def sendPayloads : List Step → Bytes
  | [] => []
  | Step.SendBytes d :: rest => d ++ sendPayloads rest
  | _ :: rest => sendPayloads rest

/-- Ledger contribution of a single step. -/
def stepPayload : Step → Bytes
  | Step.SendBytes d => d
  | _ => []

/-- A transport oracle for witnesses. -/
def sampleWorld : World :=
  { readExactOutcome := ReadOutcome.timeout
    readUntilCloseOutcome := ReadCloseOutcome.timeout
    writeRaises := false }

/-- A state whose error sink is already non-empty, with steps and
actions still pending. -/
def errState : EngineState :=
  { initialState with
      errors := [MockError.pyError PyError.AssertionError]
      expecations_queue := [Step.SendBytes [1], Step.ExpectConnect 1]
      server_actions := [Step.SendBytes [2]] }

/-- A fault-free two-send script. -/
def okState : EngineState :=
  { initialState with
      expecations_queue := [Step.SendBytes [1, 2], Step.SendBytes [3]] }

/-- A one-send script driven by a world whose transport write raises. -/
def cexState : EngineState :=
  { initialState with expecations_queue := [Step.SendBytes [1]] }

/-- The world in which the transport write raises (and is suppressed by
`SendBytes.server_action`). -/
def cexWorld : World :=
  { readExactOutcome := ReadOutcome.timeout
    readUntilCloseOutcome := ReadCloseOutcome.timeout
    writeRaises := true }

/-- A state with an active connection registered. -/
def connState : EngineState :=
  { initialState with connected := true, reader := some 5, writer := some 6 }

/-- A state with one pending `SendBytes` action and no errors. -/
def sendState : EngineState :=
  { initialState with server_actions := [Step.SendBytes [2]] }

/-- A drained state with a recorded error and the join flag clear. -/
def errJoinState : EngineState :=
  { initialState with errors :=
      [MockError.unexpectedEventError ServerActionEvent.ReadZeroBytes
         ServerActionEvent.TimeoutEvent,
       MockError.pyError PyError.AssertionError] }

/-- A state on which `join` has already raised once. -/
def failedFlagState : EngineState :=
  { initialState with
      join_already_failed := true
      errors := [MockError.pyError PyError.AssertionError] }

/-- C3: on a connection-acceptance callback, a first connection sets
`connected`, registers the reader/writer and injects
`ClientConnectedEvent`; while already connected the callback injects
`SecondClientConnectionAttempted` and leaves the registered streams and
the flag unchanged. -/
theorem C3_connection_handler (s s2 : EngineState) (r w r2 w2 : Nat)
    (hnc : s.connected = false) (hc : s2.connected = true) :
    handle_client_connection s r w =
      { s with connected := true
               reader := some r
               writer := some w
               server_event_queue :=
                 s.server_event_queue ++ [ServerActionEvent.ClientConnectedEvent] } ∧
    handle_client_connection s2 r2 w2 =
      { s2 with server_event_queue :=
          s2.server_event_queue ++ [ServerActionEvent.SecondClientConnectionAttempted] } := by
  constructor
  · simp [handle_client_connection, hnc]
  · simp [handle_client_connection, hc]

theorem C3_connection_handler_witness :
    handle_client_connection initialState 5 6 =
      { initialState with
          connected := true
          reader := some 5
          writer := some 6
          server_event_queue :=
            initialState.server_event_queue ++ [ServerActionEvent.ClientConnectedEvent] } ∧
    handle_client_connection connState 7 8 =
      { connState with server_event_queue :=
          connState.server_event_queue ++ [ServerActionEvent.SecondClientConnectionAttempted] } :=
  C3_connection_handler initialState connState 5 6 7 8 rfl rfl

/-- C4: `ExpectBytes.evaluate` succeeds exactly when the next event is
`BytesReadEvent` with payload byte-for-byte equal to the expected
bytes; every other event yields an `UnexpectedEventError` recording the
expected `BytesReadEvent` and the actual event, and a content mismatch
is a different recorded failure from a timeout. -/
theorem C4_expect_bytes_eval (B B2 : Bytes) (e e2 : ServerActionEvent)
    (hne : B2 ≠ B) (he2 : e2 ≠ ServerActionEvent.BytesReadEvent B) :
    (expectBytesEvaluate B e = Except.ok () ↔ e = ServerActionEvent.BytesReadEvent B) ∧
    expectBytesEvaluate B e2 =
      Except.error (MockError.unexpectedEventError (ServerActionEvent.BytesReadEvent B) e2) ∧
    expectBytesEvaluate B (ServerActionEvent.BytesReadEvent B2) ≠
      expectBytesEvaluate B ServerActionEvent.TimeoutEvent := by
  refine ⟨?_, ?_, ?_⟩
  · cases e <;> simp [expectBytesEvaluate]
  · cases e2 <;> simp_all [expectBytesEvaluate]
  · simp [expectBytesEvaluate, hne]

theorem C4_expect_bytes_eval_witness :
    (expectBytesEvaluate [1] (ServerActionEvent.BytesReadEvent [1]) = Except.ok () ↔
      ServerActionEvent.BytesReadEvent [1] = ServerActionEvent.BytesReadEvent ([1] : Bytes)) ∧
    expectBytesEvaluate [1] ServerActionEvent.TimeoutEvent =
      Except.error (MockError.unexpectedEventError
        (ServerActionEvent.BytesReadEvent [1]) ServerActionEvent.TimeoutEvent) ∧
    expectBytesEvaluate [1] (ServerActionEvent.BytesReadEvent [1, 2]) ≠
      expectBytesEvaluate [1] ServerActionEvent.TimeoutEvent :=
  C4_expect_bytes_eval [1] [1, 2] (ServerActionEvent.BytesReadEvent [1])
    ServerActionEvent.TimeoutEvent (by decide) (by decide)

/-- C5: `ExpectReadZeroBytes.server_action` yields `TimeoutEvent` on
timeout, `ReadZeroBytes` on a zero-byte read and identically on a
connection reset, and `BytesReadEvent` on a nonempty read; every
outcome is one of these three; and `evaluate` succeeds exactly on
`ReadZeroBytes`. -/
theorem C5_read_zero (o : ReadCloseOutcome) (e : ServerActionEvent) (d : Bytes)
    (hd : d ≠ []) :
    expectReadZeroBytesServerAction ReadCloseOutcome.timeout = ServerActionEvent.TimeoutEvent ∧
    expectReadZeroBytesServerAction ReadCloseOutcome.connectionReset =
      ServerActionEvent.ReadZeroBytes ∧
    expectReadZeroBytesServerAction (ReadCloseOutcome.data []) = ServerActionEvent.ReadZeroBytes ∧
    expectReadZeroBytesServerAction (ReadCloseOutcome.data d) = ServerActionEvent.BytesReadEvent d ∧
    (expectReadZeroBytesServerAction o = ServerActionEvent.TimeoutEvent ∨
     expectReadZeroBytesServerAction o = ServerActionEvent.ReadZeroBytes ∨
     ∃ b : Bytes, b ≠ [] ∧ expectReadZeroBytesServerAction o = ServerActionEvent.BytesReadEvent b) ∧
    (expectReadZeroBytesEvaluate e = Except.ok () ↔ e = ServerActionEvent.ReadZeroBytes) := by
  refine ⟨rfl, rfl, rfl, ?_, ?_, ?_⟩
  · simp [expectReadZeroBytesServerAction, List.length_eq_zero, hd]
  · cases o with
    | data received =>
        by_cases hr : received = []
        · right; left; simp [expectReadZeroBytesServerAction, hr]
        · right; right
          exact ⟨received, hr, by simp [expectReadZeroBytesServerAction, List.length_eq_zero, hr]⟩
    | timeout => left; rfl
    | connectionReset => right; left; rfl
  · cases e <;> simp [expectReadZeroBytesEvaluate]

theorem C5_read_zero_witness :
    expectReadZeroBytesServerAction ReadCloseOutcome.timeout = ServerActionEvent.TimeoutEvent ∧
    expectReadZeroBytesServerAction ReadCloseOutcome.connectionReset =
      ServerActionEvent.ReadZeroBytes ∧
    expectReadZeroBytesServerAction (ReadCloseOutcome.data []) = ServerActionEvent.ReadZeroBytes ∧
    expectReadZeroBytesServerAction (ReadCloseOutcome.data [7]) =
      ServerActionEvent.BytesReadEvent [7] ∧
    (expectReadZeroBytesServerAction ReadCloseOutcome.connectionReset =
       ServerActionEvent.TimeoutEvent ∨
     expectReadZeroBytesServerAction ReadCloseOutcome.connectionReset =
       ServerActionEvent.ReadZeroBytes ∨
     ∃ b : Bytes, b ≠ [] ∧ expectReadZeroBytesServerAction ReadCloseOutcome.connectionReset =
       ServerActionEvent.BytesReadEvent b) ∧
    (expectReadZeroBytesEvaluate ServerActionEvent.ReadZeroBytes = Except.ok () ↔
      ServerActionEvent.ReadZeroBytes = ServerActionEvent.ReadZeroBytes) :=
  C5_read_zero ReadCloseOutcome.connectionReset ServerActionEvent.ReadZeroBytes [7] (by decide)

/-- C6: with `data_read_by_client` a prefix of `data_sent_from_server`,
`ExpectClientReadAllSentBytes.server_action` returns
`NoRemainingSentData` exactly when the ledgers are equal, and otherwise
returns `UnreadSentBytes` carrying the suffix of the sent ledger after
the read prefix; `evaluate` succeeds only on `NoRemainingSentData`. -/
theorem C6_no_unread (t : Nat) (sent read sent2 read2 : Bytes) (e : ServerActionEvent)
    (hpre : read.isPrefixOf sent = true)
    (hpre2 : read2.isPrefixOf sent2 = true) (hne : read2 ≠ sent2) :
    (expectClientReadAllSentBytesServerAction t sent read =
        Except.ok ServerActionEvent.NoRemainingSentData ↔ read = sent) ∧
    expectClientReadAllSentBytesServerAction t sent2 read2 =
      Except.ok (ServerActionEvent.UnreadSentBytes (sent2.drop read2.length)) ∧
    (expectClientReadAllSentBytesEvaluate e = Except.ok () ↔
      e = ServerActionEvent.NoRemainingSentData) := by
  refine ⟨?_, ?_, ?_⟩
  · by_cases h : read = sent <;>
      simp [expectClientReadAllSentBytesServerAction, expectClientReadAllSentBytesBody, h, hpre]
  · simp [expectClientReadAllSentBytesServerAction, expectClientReadAllSentBytesBody, hne, hpre2]
  · cases e <;> simp [expectClientReadAllSentBytesEvaluate]

theorem C6_no_unread_witness :
    (expectClientReadAllSentBytesServerAction 1 [1, 2] [1, 2] =
        Except.ok ServerActionEvent.NoRemainingSentData ↔ ([1, 2] : Bytes) = [1, 2]) ∧
    expectClientReadAllSentBytesServerAction 1 [1, 2, 3] [1] =
      Except.ok (ServerActionEvent.UnreadSentBytes (([1, 2, 3] : Bytes).drop ([1] : Bytes).length)) ∧
    (expectClientReadAllSentBytesEvaluate ServerActionEvent.NoRemainingSentData = Except.ok () ↔
      ServerActionEvent.NoRemainingSentData = ServerActionEvent.NoRemainingSentData) :=
  C6_no_unread 1 [1, 2] [1, 2] [1, 2, 3] [1] ServerActionEvent.NoRemainingSentData
    (by decide) (by decide) (by decide)

/-- C7: `SendBytes.server_action` returns no event for every input,
including when the transport write raises (the exception is swallowed
by the bare `except`); the executor therefore publishes nothing to the
event queue and records no error for this step, and the step's
`evaluate` is a no-op that never fails. -/
theorem C7_send_bytes_silent (w : World) (s : EngineState) (data : Bytes) (rest : List Step)
    (hq : s.server_actions = Step.SendBytes data :: rest) (he : s.errors = []) :
    (runServerAction w (Step.SendBytes data) s).2 = Except.ok none ∧
    (executorStep w s).server_event_queue = s.server_event_queue ∧
    (executorStep w s).errors = [] ∧
    (executorStep w s).server_actions = rest ∧
    evaluatorEvaluate (Step.SendBytes data) s = s := by
  cases hw : w.writeRaises <;>
    simp [runServerAction, sendBytesServerAction, executorStep, evaluatorEvaluate, hq, he, hw]

theorem C7_send_bytes_silent_witness :
    (runServerAction cexWorld (Step.SendBytes [2]) sendState).2 = Except.ok none ∧
    (executorStep cexWorld sendState).server_event_queue = sendState.server_event_queue ∧
    (executorStep cexWorld sendState).errors = [] ∧
    (executorStep cexWorld sendState).server_actions = [] ∧
    evaluatorEvaluate (Step.SendBytes [2]) sendState = sendState :=
  C7_send_bytes_silent cexWorld sendState [2] [] rfl rfl

/-- C9: `expect_disconnect` on a non-stopped engine enqueues exactly
the three steps `ExpectReadZeroBytes`, then
`ExpectClientCalledWriterWaitClosed`, then
`ExpectClientReadAllSentBytes`, consecutively at the back of the
expectation queue, each carrying the caller's timeout. -/
theorem C9_expect_disconnect (s : EngineState) (t : Nat) (h : s.stopped = false) :
    expect_disconnect s t = Except.ok { s with expecations_queue :=
      s.expecations_queue ++
        [Step.ExpectReadZeroBytes t,
         Step.ExpectClientCalledWriterWaitClosed t,
         Step.ExpectClientReadAllSentBytes t] } := by
  simp [expect_disconnect, check_not_stopped, h]

theorem C9_expect_disconnect_witness :
    expect_disconnect initialState 1 = Except.ok { initialState with expecations_queue :=
      initialState.expecations_queue ++
        [Step.ExpectReadZeroBytes 1,
         Step.ExpectClientCalledWriterWaitClosed 1,
         Step.ExpectClientReadAllSentBytes 1] } :=
  C9_expect_disconnect initialState 1 rfl

/-- C10: the `except asyncio.TimeoutError` branch of
`ExpectClientReadAllSentBytes.server_action` is dead: the action equals
its `try` body for all ledgers, never yields `TimeoutEvent`, and its
outcome does not depend on the stored per-step timeout. -/
theorem C10_timeout_branch_dead (t1 t2 : Nat) (sent read : Bytes) :
    expectClientReadAllSentBytesServerAction t1 sent read =
      expectClientReadAllSentBytesBody sent read ∧
    expectClientReadAllSentBytesServerAction t1 sent read =
      expectClientReadAllSentBytesServerAction t2 sent read ∧
    expectClientReadAllSentBytesServerAction t1 sent read ≠
      Except.ok ServerActionEvent.TimeoutEvent := by
  by_cases h1 : read = sent <;> by_cases h2 : read.isPrefixOf sent <;>
    simp [expectClientReadAllSentBytesServerAction, expectClientReadAllSentBytesBody, h1, h2]

theorem C10_timeout_branch_dead_witness :
    expectClientReadAllSentBytesServerAction 1 [7] [] =
      expectClientReadAllSentBytesBody [7] [] ∧
    expectClientReadAllSentBytesServerAction 1 [7] [] =
      expectClientReadAllSentBytesServerAction 2 [7] [] ∧
    expectClientReadAllSentBytesServerAction 1 [7] [] ≠
      Except.ok ServerActionEvent.TimeoutEvent :=
  C10_timeout_branch_dead 1 2 [7] []

/-- C2: after the expectation queue has drained, `join` raises exactly
when the error sink is non-empty; when it raises, the message is
`interpret_error` applied to the first recorded error only and the
one-shot `join_already_failed` flag is set, so any later `join` call
returns immediately without raising. -/
theorem C2_join_protocol (s s2 s3 : EngineState) (e : MockError) (rest : List MockError)
    (hq : s.expecations_queue = []) (hflag : s.join_already_failed = false)
    (herrs : s.errors = e :: rest)
    (hq3 : s3.expecations_queue = []) (hflag3 : s3.join_already_failed = false)
    (herrs3 : s3.errors = [])
    (hfailed : s2.join_already_failed = true) :
    (joinResult s).2 = some (interpret_error e) ∧
    (joinResult s).1.join_already_failed = true ∧
    (joinResult s3).2 = none ∧
    joinResult s2 = (s2, none) := by
  refine ⟨?_, ?_, ?_, ?_⟩ <;>
    simp [joinResult, hflag, herrs, hflag3, herrs3, hfailed]

theorem C2_join_protocol_witness :
    (joinResult errJoinState).2 =
      some (interpret_error (MockError.unexpectedEventError ServerActionEvent.ReadZeroBytes
        ServerActionEvent.TimeoutEvent)) ∧
    (joinResult errJoinState).1.join_already_failed = true ∧
    (joinResult initialState).2 = none ∧
    joinResult failedFlagState = (failedFlagState, none) :=
  C2_join_protocol errJoinState failedFlagState initialState
    (MockError.unexpectedEventError ServerActionEvent.ReadZeroBytes ServerActionEvent.TimeoutEvent)
    [MockError.pyError PyError.AssertionError]
    rfl rfl rfl rfl rfl rfl rfl

/-- With the error sink non-empty, one evaluator iteration only
consumes the head expectation and marks it processed. -/
theorem evaluatorStep_error_mode (w : World) (s : EngineState) (h : s.errors ≠ []) :
    evaluatorStep w s = { s with expecations_queue := s.expecations_queue.tail } := by
  obtain ⟨c, errs, jf, st, evq, acts, expq, rd, wr, latch, drb, dsf, hg⟩ := s
  cases errs with
  | nil => exact absurd rfl h
  | cons e es => cases expq <;> rfl

/-- With the error sink non-empty, one executor iteration only drops
the head action. -/
theorem executorStep_error_mode (w : World) (s : EngineState) (h : s.errors ≠ []) :
    executorStep w s = { s with server_actions := s.server_actions.tail } := by
  obtain ⟨c, errs, jf, st, evq, acts, expq, rd, wr, latch, drb, dsf, hg⟩ := s
  cases errs with
  | nil => exact absurd rfl h
  | cons e es => cases acts <;> rfl

/-- With the error sink non-empty, running the evaluator loop only
discards expectations from the front of the queue. -/
theorem runSteps_error_mode (ws : List World) :
    ∀ s : EngineState, s.errors ≠ [] →
      runSteps ws s = { s with expecations_queue := s.expecations_queue.drop ws.length } := by
  induction ws with
  | nil =>
      intro s h
      obtain ⟨c, errs, jf, st, evq, acts, expq, rd, wr, latch, drb, dsf, hg⟩ := s
      rfl
  | cons w rest ih =>
      intro s h
      show runSteps rest (evaluatorStep w s) = _
      rw [evaluatorStep_error_mode w s h, ih _ (by simpa using h)]
      obtain ⟨c, errs, jf, st, evq, acts, expq, rd, wr, latch, drb, dsf, hg⟩ := s
      cases expq with
      | nil => simp
      | cons q qs => rfl

/-- C1: whenever the error sink is non-empty, the evaluator consumes
the next declared step and marks it processed without enqueuing its
action, calling its evaluate, or touching any other state; the executor
drops the next dequeued action without executing it and publishes no
event; hence the expectation queue drains after at most one iteration
per pending step and the await inside `join` completes. -/
theorem C1_error_mode_drains (w : World) (s : EngineState) (h : s.errors ≠ []) :
    evaluatorStep w s = { s with expecations_queue := s.expecations_queue.tail } ∧
    executorStep w s = { s with server_actions := s.server_actions.tail } ∧
    ∀ ws : List World, s.expecations_queue.length ≤ ws.length →
      runSteps ws s = { s with expecations_queue := [] } ∧
      joinTerminates (runSteps ws s) = true := by
  refine ⟨evaluatorStep_error_mode w s h, executorStep_error_mode w s h, ?_⟩
  intro ws hle
  have hr := runSteps_error_mode ws s h
  rw [List.drop_eq_nil_of_le hle] at hr
  exact ⟨hr, by rw [hr]; simp [joinTerminates]⟩

theorem C1_error_mode_drains_witness :
    runSteps [sampleWorld, sampleWorld] errState = { errState with expecations_queue := [] } ∧
    joinTerminates (runSteps [sampleWorld, sampleWorld] errState) = true :=
  (C1_error_mode_drains sampleWorld errState (by decide)).2.2
    [sampleWorld, sampleWorld] (by decide)

/-- A step's `evaluate` touches neither the queues of pending work nor
the sent-byte ledger. -/
theorem blockingEvaluate_proj (f : ServerActionEvent → Except MockError Unit)
    (s : EngineState) :
    (blockingEvaluate f s).server_actions = s.server_actions ∧
    (blockingEvaluate f s).expecations_queue = s.expecations_queue ∧
    (blockingEvaluate f s).data_sent_from_server = s.data_sent_from_server := by
  unfold blockingEvaluate
  split
  · exact ⟨rfl, rfl, rfl⟩
  · split <;> exact ⟨rfl, rfl, rfl⟩

theorem evaluatorEvaluate_proj (step : Step) (s : EngineState) :
    (evaluatorEvaluate step s).server_actions = s.server_actions ∧
    (evaluatorEvaluate step s).expecations_queue = s.expecations_queue ∧
    (evaluatorEvaluate step s).data_sent_from_server = s.data_sent_from_server := by
  cases step with
  | ExpectConnect t =>
      simp only [evaluatorEvaluate]
      split <;> split <;> exact ⟨rfl, rfl, rfl⟩
  | ExpectClientCalledWriterWaitClosed t =>
      simp only [evaluatorEvaluate]
      split <;> exact ⟨rfl, rfl, rfl⟩
  | ExpectBytes b t => exact blockingEvaluate_proj _ _
  | ExpectReadZeroBytes t => exact blockingEvaluate_proj _ _
  | ExpectClientReadAllSentBytes t => exact blockingEvaluate_proj _ _
  | SendBytes d => exact ⟨rfl, rfl, rfl⟩

/-- A step's `evaluate` can only append to the error sink. -/
theorem blockingEvaluate_errors_append (f : ServerActionEvent → Except MockError Unit)
    (s : EngineState) :
    ∃ l, (blockingEvaluate f s).errors = s.errors ++ l := by
  unfold blockingEvaluate
  split
  · exact ⟨[], by simp⟩
  · split
    · exact ⟨[], by simp⟩
    · exact ⟨[_], rfl⟩

theorem evaluatorEvaluate_errors_append (step : Step) (s : EngineState) :
    ∃ l, (evaluatorEvaluate step s).errors = s.errors ++ l := by
  cases step with
  | ExpectConnect t =>
      simp only [evaluatorEvaluate]
      split <;> split
      · exact ⟨[], by simp⟩
      · exact ⟨[_], rfl⟩
      · exact ⟨[], by simp⟩
      · exact ⟨[_], rfl⟩
  | ExpectClientCalledWriterWaitClosed t =>
      simp only [evaluatorEvaluate]
      split
      · exact ⟨[], by simp⟩
      · exact ⟨[_], rfl⟩
  | ExpectBytes b t => exact blockingEvaluate_errors_append _ _
  | ExpectReadZeroBytes t => exact blockingEvaluate_errors_append _ _
  | ExpectClientReadAllSentBytes t => exact blockingEvaluate_errors_append _ _
  | SendBytes d => exact ⟨[], by simp [evaluatorEvaluate]⟩

/-- `server_action` bodies never touch the error sink or the queues of
pending work. -/
theorem runServerAction_fst_errors (w : World) (step : Step) (s : EngineState) :
    (runServerAction w step s).1.errors = s.errors := by
  cases step <;> rfl

theorem runServerAction_fst_actions (w : World) (step : Step) (s : EngineState) :
    (runServerAction w step s).1.server_actions = s.server_actions := by
  cases step <;> rfl

theorem runServerAction_fst_expecations (w : World) (step : Step) (s : EngineState) :
    (runServerAction w step s).1.expecations_queue = s.expecations_queue := by
  cases step <;> rfl

/-- When the transport write succeeds, running a step's action extends
the sent ledger by exactly that step's payload. -/
theorem runServerAction_fst_ledger (w : World) (step : Step) (s : EngineState)
    (hw : w.writeRaises = false) :
    (runServerAction w step s).1.data_sent_from_server =
      s.data_sent_from_server ++ stepPayload step := by
  cases step <;> simp [runServerAction, sendBytesServerAction, stepPayload, hw]

/-- The executor task can only append to the error sink. -/
theorem executorStep_errors_append (w : World) (s : EngineState) :
    ∃ l, (executorStep w s).errors = s.errors ++ l := by
  obtain ⟨c, errs, jf, st, evq, acts, expq, rd, wr, latch, drb, dsf, hg⟩ := s
  cases acts with
  | nil => exact ⟨[], by simp [executorStep]⟩
  | cons step rest =>
      cases errs with
      | cons e es => exact ⟨[], by simp [executorStep]⟩
      | nil =>
          cases hr : runServerAction w step
            (EngineState.mk c [] jf st evq rest expq rd wr latch drb dsf hg) with
          | mk s2 r =>
            have h2 : s2.errors = [] := by
              have h3 := runServerAction_fst_errors w step
                (EngineState.mk c [] jf st evq rest expq rd wr latch drb dsf hg)
              rw [hr] at h3
              exact h3
            cases r with
            | ok o =>
                cases o with
                | none => exact ⟨[], by simp [executorStep, hr, h2]⟩
                | some ev => exact ⟨[], by simp [executorStep, hr, h2]⟩
            | error e => exact ⟨[MockError.pyError e], by simp [executorStep, hr, h2]⟩

/-- One evaluator iteration can only append to the error sink. -/
theorem evaluatorStep_errors_append (w : World) (s : EngineState) :
    ∃ l, (evaluatorStep w s).errors = s.errors ++ l := by
  obtain ⟨c, errs, jf, st, evq, acts, expq, rd, wr, latch, drb, dsf, hg⟩ := s
  cases expq with
  | nil => exact ⟨[], by simp [evaluatorStep]⟩
  | cons step tl =>
      cases errs with
      | cons e es => exact ⟨[], by simp [evaluatorStep]⟩
      | nil =>
          obtain ⟨l1, h1⟩ := executorStep_errors_append w
            (EngineState.mk c [] jf st evq (acts ++ [step]) tl rd wr latch drb dsf hg)
          obtain ⟨l2, h2⟩ := evaluatorEvaluate_errors_append step
            (executorStep w
              (EngineState.mk c [] jf st evq (acts ++ [step]) tl rd wr latch drb dsf hg))
          refine ⟨l1 ++ l2, ?_⟩
          show (evaluatorEvaluate step (executorStep w
            (EngineState.mk c [] jf st evq (acts ++ [step]) tl rd wr latch drb dsf hg))).errors = _
          rw [h2, h1]
          simp [List.append_assoc]

/-- A whole run can only append to the error sink. -/
theorem runSteps_errors_append (ws : List World) :
    ∀ s : EngineState, ∃ l, (runSteps ws s).errors = s.errors ++ l := by
  induction ws with
  | nil => exact fun s => ⟨[], by simp [runSteps]⟩
  | cons w rest ih =>
      intro s
      obtain ⟨l1, h1⟩ := evaluatorStep_errors_append w s
      obtain ⟨l2, h2⟩ := ih (evaluatorStep w s)
      refine ⟨l1 ++ l2, ?_⟩
      show (runSteps rest (evaluatorStep w s)).errors = _
      rw [h2, h1]
      simp [List.append_assoc]

/-- With no recorded error and a successful write, one executor
iteration consumes the head action and extends the sent ledger by that
step's payload, touching no queue of declared work. -/
theorem executorStep_spec (w : World) (s : EngineState) (step : Step) (rest : List Step)
    (hq : s.server_actions = step :: rest) (he : s.errors = [])
    (hw : w.writeRaises = false) :
    (executorStep w s).server_actions = rest ∧
    (executorStep w s).expecations_queue = s.expecations_queue ∧
    (executorStep w s).data_sent_from_server =
      s.data_sent_from_server ++ stepPayload step := by
  obtain ⟨c, errs, jf, st, evq, acts, expq, rd, wr, latch, drb, dsf, hg⟩ := s
  replace hq : acts = step :: rest := hq
  replace he : errs = [] := he
  subst hq he
  cases hr : runServerAction w step
    (EngineState.mk c [] jf st evq rest expq rd wr latch drb dsf hg) with
  | mk s2 r =>
    have hacts : s2.server_actions = rest := by
      have h3 := runServerAction_fst_actions w step
        (EngineState.mk c [] jf st evq rest expq rd wr latch drb dsf hg)
      rw [hr] at h3
      exact h3
    have hexp : s2.expecations_queue = expq := by
      have h3 := runServerAction_fst_expecations w step
        (EngineState.mk c [] jf st evq rest expq rd wr latch drb dsf hg)
      rw [hr] at h3
      exact h3
    have hled : s2.data_sent_from_server = dsf ++ stepPayload step := by
      have h3 := runServerAction_fst_ledger w step
        (EngineState.mk c [] jf st evq rest expq rd wr latch drb dsf hg) hw
      rw [hr] at h3
      exact h3
    cases r with
    | ok o =>
        cases o with
        | none =>
            refine ⟨?_, ?_, ?_⟩ <;> simp [executorStep, hr, hacts, hexp, hled]
        | some ev =>
            refine ⟨?_, ?_, ?_⟩ <;> simp [executorStep, hr, hacts, hexp, hled]
    | error e =>
        refine ⟨?_, ?_, ?_⟩ <;> simp [executorStep, hr, hacts, hexp, hled]

/-- With no recorded error yet and a successful write, one evaluator
iteration consumes the head expectation, leaves the action queue
drained, and extends the sent ledger by exactly the step's payload. -/
theorem evaluatorStep_spec (w : World) (s : EngineState) (step : Step) (tl : List Step)
    (hq : s.expecations_queue = step :: tl) (hact : s.server_actions = [])
    (he : s.errors = []) (hw : w.writeRaises = false) :
    (evaluatorStep w s).server_actions = [] ∧
    (evaluatorStep w s).expecations_queue = tl ∧
    (evaluatorStep w s).data_sent_from_server =
      s.data_sent_from_server ++ stepPayload step := by
  obtain ⟨c, errs, jf, st, evq, acts, expq, rd, wr, latch, drb, dsf, hg⟩ := s
  replace hq : expq = step :: tl := hq
  replace hact : acts = [] := hact
  replace he : errs = [] := he
  subst hq hact he
  have hmid := executorStep_spec w
    (EngineState.mk c [] jf st evq ([] ++ [step]) tl rd wr latch drb dsf hg)
    step [] rfl rfl hw
  obtain ⟨p1, p2, p3⟩ := evaluatorEvaluate_proj step
    (executorStep w (EngineState.mk c [] jf st evq ([] ++ [step]) tl rd wr latch drb dsf hg))
  show (evaluatorEvaluate step (executorStep w
      (EngineState.mk c [] jf st evq ([] ++ [step]) tl rd wr latch drb dsf hg))).server_actions
        = [] ∧
    (evaluatorEvaluate step (executorStep w
      (EngineState.mk c [] jf st evq ([] ++ [step]) tl rd wr latch drb dsf hg))).expecations_queue
        = tl ∧
    (evaluatorEvaluate step (executorStep w
      (EngineState.mk c [] jf st evq ([] ++ [step]) tl rd wr latch drb dsf hg))).data_sent_from_server
        = dsf ++ stepPayload step
  rw [p1, p2, p3]
  exact ⟨hmid.1, hmid.2.1, hmid.2.2⟩

/-- The ledger contribution of a script decomposes headwise. -/
theorem sendPayloads_cons (step : Step) (tl : List Step) :
    sendPayloads (step :: tl) = stepPayload step ++ sendPayloads tl := by
  cases step <;> rfl

/-- Over a fault-free run (empty action queue to start, enough
iterations, all writes succeed, no error ever recorded), the final
sent ledger is the initial ledger extended by the concatenation, in
declaration order, of all `SendBytes` payloads, and the expectation
queue drains. -/
theorem runSteps_ledger (ws : List World) :
    ∀ s : EngineState, s.server_actions = [] →
      s.expecations_queue.length ≤ ws.length →
      (∀ w ∈ ws, w.writeRaises = false) →
      (runSteps ws s).errors = [] →
      (runSteps ws s).data_sent_from_server =
        s.data_sent_from_server ++ sendPayloads s.expecations_queue ∧
      (runSteps ws s).expecations_queue = [] := by
  induction ws with
  | nil =>
      intro s hact hlen hw herr
      have hq : s.expecations_queue = [] := by
        cases h : s.expecations_queue with
        | nil => rfl
        | cons a l => rw [h] at hlen; simp at hlen
      show s.data_sent_from_server = _ ∧ s.expecations_queue = []
      rw [hq]
      exact ⟨by simp [sendPayloads], rfl⟩
  | cons w rest ih =>
      intro s hact hlen hw herr
      have hrw : runSteps (w :: rest) s = runSteps rest (evaluatorStep w s) := rfl
      have hwhead : w.writeRaises = false := hw w (by simp)
      have hwrest : ∀ v ∈ rest, v.writeRaises = false := fun v hv => hw v (by simp [hv])
      cases hq : s.expecations_queue with
      | nil =>
          have hid : evaluatorStep w s = s := by
            unfold evaluatorStep
            simp only [hq]
          rw [hrw, hid] at herr ⊢
          have h2 := ih s hact (by rw [hq]; simp) hwrest herr
          rw [hq] at h2
          exact h2
      | cons step tl =>
          have hse : s.errors = [] := by
            obtain ⟨l, hl⟩ := runSteps_errors_append (w :: rest) s
            rw [hl] at herr
            exact (List.append_eq_nil.mp herr).1
          obtain ⟨e1, e2, e3⟩ := evaluatorStep_spec w s step tl hq hact hse hwhead
          rw [hrw] at herr ⊢
          have hlen2 : (evaluatorStep w s).expecations_queue.length ≤ rest.length := by
            rw [e2]
            have h5 : s.expecations_queue.length ≤ rest.length + 1 := by
              simpa using hlen
            rw [hq] at h5
            simp only [List.length_cons] at h5
            omega
          obtain ⟨ihled, ihq⟩ := ih (evaluatorStep w s) e1 hlen2 hwrest herr
          refine ⟨?_, ihq⟩
          rw [ihled, e2, e3, sendPayloads_cons, List.append_assoc]

/-- C8 counterexample: a script whose only `SendBytes` write raises (and
is suppressed by the action's bare `except`) records no error at all,
so `join` completes without raising, yet the final sent ledger is empty
and differs from the concatenation of the declared payloads. -/
theorem C8_suppressed_write_counterexample :
    (runSteps [cexWorld] cexState).errors = [] ∧
    (joinResult (runSteps [cexWorld] cexState)).2 = none ∧
    (runSteps [cexWorld] cexState).data_sent_from_server ≠
      sendPayloads cexState.expecations_queue := by
  refine ⟨by decide, by decide, by decide⟩

/-- C8 (amended): for every script run from an empty action queue in
which every transport write succeeds and no error is recorded, `join`
completes without raising and the final sent ledger equals the initial
ledger extended by the concatenation, in declaration order, of the
payloads of all `SendBytes` steps. -/
theorem C8_no_fault_run (ws : List World) (s : EngineState)
    (hact : s.server_actions = [])
    (hlen : s.expecations_queue.length ≤ ws.length)
    (hw : ∀ w ∈ ws, w.writeRaises = false)
    (herr : (runSteps ws s).errors = []) :
    (joinResult (runSteps ws s)).2 = none ∧
    (runSteps ws s).data_sent_from_server =
      s.data_sent_from_server ++ sendPayloads s.expecations_queue := by
  refine ⟨?_, (runSteps_ledger ws s hact hlen hw herr).1⟩
  unfold joinResult
  split
  · rfl
  · rw [herr]

theorem C8_no_fault_run_witness :
    (joinResult (runSteps [sampleWorld, sampleWorld] okState)).2 = none ∧
    (runSteps [sampleWorld, sampleWorld] okState).data_sent_from_server =
      okState.data_sent_from_server ++ sendPayloads okState.expecations_queue :=
  C8_no_fault_run [sampleWorld, sampleWorld] okState (by decide) (by decide)
    (by decide) (by decide)
